import Mathlib

/-!
Verification of the escrow program in `programs/escrow/src/lib.rs`.

The program's core state is an `EscrowAccount` record (a `u64`
`total_purchase_cost` and a `u8` `bump_seed`) together with the balance of
the escrow's SPL token vault account (`escrow_token_account.amount`, a
`u64`).  We embed the two pure arithmetic helpers and the five instruction
handlers as Lean functions over `Nat`, modelling machine integers by `Nat`
with explicit `% 2 ^ 64` where the Rust code performs unchecked `u64`
arithmetic (Solana programs are release builds, where `+=` wraps), and
modelling Rust's `checked_mul` / `checked_div` / `checked_sub` on `u128` /
`u64` faithfully as `Option`-returning operations.

External token-ledger effects (the seller's, buyer's and proceeds
accounts) are not part of the escrow state; their possible failures only
remove executions, so every invariant proved over this model covers the
real program's successful executions.  The one external effect that lands
in the modelled state is the change to the vault balance, for which the
SPL token program uses checked arithmetic; we model its overflow failure
as `ProgErr.tokenError`.
-/

/-- Size bound of `u64`: `2 ^ 64`. -/
def u64Lim : Nat := 2 ^ 64

/-- Size bound of `u128`: `2 ^ 128`. -/
def u128Lim : Nat := 2 ^ 128

/-- Rust `u128::checked_mul`: `some (a * b)` unless the product overflows 128 bits. -/
def checkedMul128 (a b : Nat) : Option Nat :=
  if a * b < u128Lim then some (a * b) else none

/-- Rust `u128::checked_div`: `none` exactly when the divisor is zero. -/
def checkedDiv (a b : Nat) : Option Nat :=
  if b = 0 then none else some (a / b)

/-- Rust `u64::checked_sub`: `none` exactly when the subtraction would underflow. -/
def checkedSub (a b : Nat) : Option Nat :=
  if b ≤ a then some (a - b) else none

/-- Errors the modelled program can surface.  `invalidArgument` and
`insufficientFunds` are the `ProgramError` variants the escrow code
returns itself; `tokenError` stands for any error raised by the external
SPL token program (e.g. overflow of a token-account balance). -/
inductive ProgErr where
  | invalidArgument
  | insufficientFunds
  | tokenError
deriving DecidableEq

/-- Embedding of `_check_tender_args` (lib.rs lines 14-29): reject zero
`add_cost`/`add_qty`, then require the 128-bit cross-products
`current_qty * add_cost` and `current_cost * add_qty` to be equal. -/
def _check_tender_args (current_cost add_cost current_qty add_qty : Nat) : Except ProgErr Unit :=
  if add_cost = 0 ∨ add_qty = 0 then Except.error ProgErr.invalidArgument
  else
    match checkedMul128 current_qty add_cost, checkedMul128 current_cost add_qty with
    | some lhs, some rhs =>
        if lhs ≠ rhs then Except.error ProgErr.invalidArgument else Except.ok ()
    | _, _ => Except.error ProgErr.invalidArgument

/-- Embedding of `_get_purchase_cost` (lib.rs lines 31-49): reject
`qty == 0` or `qty > total_qty`; compute
`cost = (qty * total_cost) / total_qty` in 128 bits; require
`total_qty * cost == qty * total_cost` exactly; finally require the cost
to fit in a `u64` (Rust `u64::try_from`). -/
def _get_purchase_cost (qty total_qty total_cost : Nat) : Except ProgErr Nat :=
  if qty = 0 ∨ total_qty < qty then Except.error ProgErr.invalidArgument
  else
    match (checkedMul128 qty total_cost).bind (fun r => checkedDiv r total_qty) with
    | none => Except.error ProgErr.invalidArgument
    | some cost =>
      match checkedMul128 total_qty cost, checkedMul128 qty total_cost with
      | some lhs, some rhs =>
          if lhs ≠ rhs then Except.error ProgErr.invalidArgument
          else if cost < u64Lim then Except.ok cost
          else Except.error ProgErr.invalidArgument
      | _, _ => Except.error ProgErr.invalidArgument

/-- The persisted escrow metadata record (lib.rs lines 457-462). -/
structure EscrowAccount where
  total_purchase_cost : Nat
  bump_seed : Nat
deriving DecidableEq

/-- The state an escrow instruction operates on: the metadata record plus
the balance of the escrow's token vault (`escrow_token_account.amount`). -/
structure EscrowState where
  record : EscrowAccount
  vault_balance : Nat
deriving DecidableEq

/-- Embedding of `tender` (lib.rs lines 55-72): run `_check_tender_args`
on (record cost, added cost, vault balance, added quantity); transfer
`asset_quantity_for_sale` into the vault (the SPL token program adds to
the destination amount with `checked_add`, failing on `u64` overflow);
then `escrow_account.total_purchase_cost += total_purchase_cost` — an
unchecked `u64` addition, hence reduced `% 2 ^ 64` — and
`escrow_account.bump_seed = bump_seed`. -/
def tender (s : EscrowState) (bump_seed total_purchase_cost asset_quantity_for_sale : Nat) :
    Except ProgErr EscrowState :=
  match _check_tender_args s.record.total_purchase_cost total_purchase_cost
      s.vault_balance asset_quantity_for_sale with
  | Except.error e => Except.error e
  | Except.ok _ =>
    if s.vault_balance + asset_quantity_for_sale < u64Lim then
      Except.ok ⟨⟨(s.record.total_purchase_cost + total_purchase_cost) % u64Lim, bump_seed⟩,
        s.vault_balance + asset_quantity_for_sale⟩
    else Except.error ProgErr.tokenError

/-- Embedding of `tender_from_mint` (lib.rs lines 74-126): identical
argument check and record update to `tender`; the vault is funded by
minting `asset_quantity_for_sale` into it (again a checked addition to
the vault amount inside the token program) instead of transferring. -/
def tender_from_mint (s : EscrowState)
    (bump_seed total_purchase_cost asset_quantity_for_sale : Nat) :
    Except ProgErr EscrowState :=
  match _check_tender_args s.record.total_purchase_cost total_purchase_cost
      s.vault_balance asset_quantity_for_sale with
  | Except.error e => Except.error e
  | Except.ok _ =>
    if s.vault_balance + asset_quantity_for_sale < u64Lim then
      Except.ok ⟨⟨(s.record.total_purchase_cost + total_purchase_cost) % u64Lim, bump_seed⟩,
        s.vault_balance + asset_quantity_for_sale⟩
    else Except.error ProgErr.tokenError

/-- Result of a purchase instruction: the cost charged to the buyer, and
the escrow state afterwards — `none` when the vault emptied and both the
token account and the record were closed. -/
structure PurchaseOutcome where
  cost_paid : Nat
  state : Option EscrowState
deriving DecidableEq

/-- Embedding of `purchase_partial` (lib.rs lines 135-186): compute the
cost via `_get_purchase_cost` on (requested qty, vault balance, record
cost); transfer the payment (external accounts, not modelled); decrement
the record cost with `checked_sub`, failing `InsufficientFunds` on
underflow; transfer `quantity_to_transfer` out of the vault; reload the
vault balance and, when it reached zero, close the vault and the record. -/
def purchase_partial (s : EscrowState) (quantity_to_transfer : Nat) :
    Except ProgErr PurchaseOutcome :=
  match _get_purchase_cost quantity_to_transfer s.vault_balance
      s.record.total_purchase_cost with
  | Except.error e => Except.error e
  | Except.ok purchase_cost =>
    match checkedSub s.record.total_purchase_cost purchase_cost with
    | none => Except.error ProgErr.insufficientFunds
    | some new_cost =>
      if s.vault_balance - quantity_to_transfer = 0 then
        Except.ok ⟨purchase_cost, none⟩
      else
        Except.ok ⟨purchase_cost,
          some ⟨⟨new_cost, s.record.bump_seed⟩, s.vault_balance - quantity_to_transfer⟩⟩

/-- Embedding of `purchase` (lib.rs lines 128-133): read the vault's
current balance and delegate to `purchase_partial` with it. -/
def purchase (s : EscrowState) : Except ProgErr PurchaseOutcome :=
  purchase_partial s s.vault_balance

/-- Embedding of `cancel` (lib.rs lines 188-216): return the entire vault
balance to the seller (external account, not modelled) and close the
vault and the record unconditionally. -/
def cancel (_s : EscrowState) : Except ProgErr (Option EscrowState) :=
  Except.ok none

/-- Embedding of `burn` (lib.rs lines 218-253): reject `quantity == 0` or
`quantity` above the vault balance; burn `quantity` from the vault (the
record is untouched); reload the balance and close vault and record when
it reached zero. -/
def burn (s : EscrowState) (quantity : Nat) : Except ProgErr (Option EscrowState) :=
  if quantity = 0 ∨ s.vault_balance < quantity then Except.error ProgErr.invalidArgument
  else
    if s.vault_balance - quantity = 0 then Except.ok none
    else Except.ok (some ⟨s.record, s.vault_balance - quantity⟩)

/-- Chain of partial purchases: run `purchase_partial` once per requested
quantity, threading the state and accumulating the costs charged.  A fill
requested after the record was closed fails (on chain the accounts no
longer exist). -/
def run_purchases : EscrowState → List Nat → Except ProgErr (Option EscrowState × Nat)
  | s, [] => Except.ok (some s, 0)
  | s, q :: qs =>
    match purchase_partial s q with
    | Except.error e => Except.error e
    | Except.ok out =>
      match out.state with
      | none =>
        match qs with
        | [] => Except.ok (none, out.cost_paid)
        | _ :: _ => Except.error ProgErr.invalidArgument
      | some s' =>
        match run_purchases s' qs with
        | Except.error e => Except.error e
        | Except.ok (st, proceeds) => Except.ok (st, out.cost_paid + proceeds)

/-- Two states are in the same cost/quantity proportion (cross-product
form of `total_purchase_cost / vault_balance` equality). -/
abbrev ratio_preserved (s sNew : EscrowState) : Prop :=
  sNew.record.total_purchase_cost * s.vault_balance
    = s.record.total_purchase_cost * sNew.vault_balance

/-- Product of two values below `2 ^ 64` is below `2 ^ 128`. -/
theorem mul_lt_u128 {a b : Nat} (ha : a < u64Lim) (hb : b < u64Lim) : a * b < u128Lim := by
  have h : a * b < u64Lim * u64Lim :=
    Nat.mul_lt_mul_of_lt_of_lt ha hb
  calc a * b < u64Lim * u64Lim := h
    _ = u128Lim := by
      show (2:Nat) ^ 64 * 2 ^ 64 = 2 ^ 128
      rw [← pow_add]

/-- Facts forced by a successful `_get_purchase_cost`: the quantity is
nonzero and at most the total, the returned cost satisfies the exact
cross-product equation, is at most the total cost, and fits in `u64`. -/
theorem gpc_ok_facts (qty tq tc c : Nat) (h : _get_purchase_cost qty tq tc = Except.ok c) :
    0 < qty ∧ qty ≤ tq ∧ tq * c = qty * tc ∧ c ≤ tc ∧ c < u64Lim := by
  unfold _get_purchase_cost at h
  split at h
  · simp at h
  · rename_i hcond
    push_neg at hcond
    obtain ⟨hq0, hqle⟩ := hcond
    split at h
    · simp at h
    · rename_i cost hm
      rw [Option.bind_eq_some] at hm
      obtain ⟨r, hr1, hr2⟩ := hm
      unfold checkedMul128 at hr1
      split at hr1
      · injection hr1 with hr1
        unfold checkedDiv at hr2
        split at hr2
        · simp at hr2
        · rename_i htq0
          injection hr2 with hr2
          split at h
          · rename_i lhs rhs hl hr
            split at h
            · simp at h
            · rename_i hne
              push_neg at hne
              split at h
              · rename_i hfit
                injection h with h
                subst h
                unfold checkedMul128 at hl hr
                split at hl
                · injection hl with hl
                  split at hr
                  · injection hr with hr
                    subst hl
                    subst hr
                    have heq : tq * cost = qty * tc := hne
                    have htcle : tq * cost ≤ tq * tc := by
                      rw [heq]
                      exact Nat.mul_le_mul_right tc hqle
                    have htqpos : 0 < tq := lt_of_lt_of_le (Nat.pos_of_ne_zero hq0) hqle
                    exact ⟨Nat.pos_of_ne_zero hq0, hqle, heq,
                      Nat.le_of_mul_le_mul_left htcle htqpos, hfit⟩
                  · exact absurd (show qty * tc < u128Lim by assumption) (by assumption)
                · simp at hl
              · simp at h
          · simp at h
      · simp at hr1

/-- Evaluation of `_check_tender_args` on `u64` inputs: the checked
128-bit multiplications cannot overflow, so the result is decided by the
zero tests and the cross-product comparison. -/
theorem cta_eval (cc ac cq aq : Nat) (hcc : cc < u64Lim) (hac : ac < u64Lim)
    (hcq : cq < u64Lim) (haq : aq < u64Lim) :
    _check_tender_args cc ac cq aq =
      (if ac = 0 ∨ aq = 0 then Except.error ProgErr.invalidArgument
       else if cq * ac = cc * aq then Except.ok () else Except.error ProgErr.invalidArgument) := by
  have h1 : cq * ac < u128Lim := mul_lt_u128 hcq hac
  have h2 : cc * aq < u128Lim := mul_lt_u128 hcc haq
  unfold _check_tender_args checkedMul128
  rw [if_pos h1, if_pos h2]
  by_cases hz : ac = 0 ∨ aq = 0
  · rw [if_pos hz, if_pos hz]
  · rw [if_neg hz, if_neg hz]
    by_cases he : cq * ac = cc * aq
    · simp [he]
    · simp [he]

/-- Evaluation of `_get_purchase_cost` on `u64` inputs with
`0 < qty ≤ total_qty`: it returns the floor quotient exactly when
`total_qty` divides `qty * total_cost`, and `InvalidArgument` otherwise. -/
theorem gpc_eval (qty tq tc : Nat) (h1 : 0 < qty) (h2 : qty ≤ tq)
    (htq : tq < u64Lim) (htc : tc < u64Lim) :
    _get_purchase_cost qty tq tc =
      if tq ∣ qty * tc then Except.ok (qty * tc / tq)
      else Except.error ProgErr.invalidArgument := by
  have htqpos : 0 < tq := lt_of_lt_of_le h1 h2
  have hq64 : qty < u64Lim := lt_of_le_of_lt h2 htq
  have hmul : qty * tc < u128Lim := mul_lt_u128 hq64 htc
  have hcost_le : qty * tc / tq ≤ tc := by
    have hd : qty * tc / tq ≤ tq * tc / tq :=
      Nat.div_le_div_right (Nat.mul_le_mul_right tc h2)
    rwa [Nat.mul_div_cancel_left tc htqpos] at hd
  have hbind : (checkedMul128 qty tc).bind (fun r => checkedDiv r tq) = some (qty * tc / tq) := by
    unfold checkedMul128 checkedDiv
    rw [if_pos hmul]
    simp [htqpos.ne']
  have hmul2 : tq * (qty * tc / tq) < u128Lim :=
    lt_of_le_of_lt (Nat.mul_le_mul_left tq hcost_le) (mul_lt_u128 htq htc)
  have hfit : qty * tc / tq < u64Lim := lt_of_le_of_lt hcost_le htc
  have hcm1 : checkedMul128 tq (qty * tc / tq) = some (tq * (qty * tc / tq)) := by
    unfold checkedMul128
    rw [if_pos hmul2]
  have hcm2 : checkedMul128 qty tc = some (qty * tc) := by
    unfold checkedMul128
    rw [if_pos hmul]
  unfold _get_purchase_cost
  rw [if_neg (show ¬(qty = 0 ∨ tq < qty) by omega), hbind]
  dsimp only
  rw [hcm1, hcm2]
  dsimp only
  by_cases hd : tq ∣ qty * tc
  · have hx : tq * (qty * tc / tq) = qty * tc := Nat.mul_div_cancel' hd
    rw [if_pos hd, if_neg (not_not_intro hx), if_pos hfit]
  · have hx : tq * (qty * tc / tq) ≠ qty * tc := by
      intro hcontra
      exact hd (Dvd.intro _ hcontra)
    rw [if_neg hd, if_pos hx]

/-- Facts forced by a successful `_check_tender_args`: both added values
are nonzero and the cross-products agree. -/
theorem cta_ok_facts (cc ac cq aq : Nat) (h : _check_tender_args cc ac cq aq = Except.ok ()) :
    ac ≠ 0 ∧ aq ≠ 0 ∧ cq * ac = cc * aq := by
  unfold _check_tender_args at h
  split at h
  · simp at h
  · rename_i hz
    push_neg at hz
    split at h
    · rename_i lhs rhs hl hr
      split at h
      · simp at h
      · rename_i hne
        push_neg at hne
        unfold checkedMul128 at hl hr
        split at hl
        · injection hl with hl
          split at hr
          · injection hr with hr
            subst hl
            subst hr
            exact ⟨hz.1, hz.2, hne⟩
          · simp at hr
        · simp at hl
    · simp at h

/-- Facts forced by a successful `tender`: the ratio check passed, the
new vault balance fits in `u64`, and the resulting state is determined. -/
theorem tender_ok_facts (s : EscrowState) (b ac aq : Nat) (sNew : EscrowState)
    (h : tender s b ac aq = Except.ok sNew) :
    ac ≠ 0 ∧ aq ≠ 0 ∧ s.vault_balance * ac = s.record.total_purchase_cost * aq ∧
      s.vault_balance + aq < u64Lim ∧
      sNew = ⟨⟨(s.record.total_purchase_cost + ac) % u64Lim, b⟩, s.vault_balance + aq⟩ := by
  unfold tender at h
  split at h
  · simp at h
  · rename_i u hchk
    split at h
    · rename_i hfit
      injection h with h
      obtain ⟨h1, h2, h3⟩ := cta_ok_facts _ _ _ _ hchk
      exact ⟨h1, h2, h3, hfit, h.symm⟩
    · simp at h

/-- Facts forced by a successful `purchase_partial`: valid quantity, the
exact cost equation, no underflow, and the resulting outcome state. -/
theorem pp_ok_facts (s : EscrowState) (q : Nat) (out : PurchaseOutcome)
    (h : purchase_partial s q = Except.ok out) :
    0 < q ∧ q ≤ s.vault_balance ∧
      s.vault_balance * out.cost_paid = q * s.record.total_purchase_cost ∧
      out.cost_paid ≤ s.record.total_purchase_cost ∧
      (if s.vault_balance - q = 0 then out.state = none
       else out.state = some ⟨⟨s.record.total_purchase_cost - out.cost_paid, s.record.bump_seed⟩,
         s.vault_balance - q⟩) := by
  unfold purchase_partial at h
  split at h
  · simp at h
  · rename_i c hgpc
    obtain ⟨hq, hqle, heq, hcle, _⟩ := gpc_ok_facts _ _ _ _ hgpc
    split at h
    · rename_i hsub
      unfold checkedSub at hsub
      rw [if_pos hcle] at hsub
      simp at hsub
    · rename_i nc hsub
      unfold checkedSub at hsub
      rw [if_pos hcle] at hsub
      injection hsub with hsub
      split at h
      · rename_i hz
        injection h with h
        subst h
        rw [if_pos hz]
        exact ⟨hq, hqle, heq, hcle, rfl⟩
      · rename_i hz
        injection h with h
        subst h
        rw [if_neg hz]
        subst hsub
        exact ⟨hq, hqle, heq, hcle, rfl⟩

/-- The mint-funded deposit has the same state-level behaviour as the
transfer-funded one: both bodies run the same check and record update. -/
theorem tender_from_mint_eq_tender : tender_from_mint = tender := rfl

/-- Errors raised by `_get_purchase_cost` are always `InvalidArgument`:
every failure branch in the function returns that variant. -/
theorem gpc_error_invalid (qty tq tc : Nat) (e : ProgErr)
    (h : _get_purchase_cost qty tq tc = Except.error e) : e = ProgErr.invalidArgument := by
  unfold _get_purchase_cost at h
  split at h
  · injection h with h
    exact h.symm
  · split at h
    · injection h with h
      exact h.symm
    · split at h
      · split at h
        · injection h with h
          exact h.symm
        · split at h
          · simp at h
          · injection h with h
            exact h.symm
      · injection h with h
        exact h.symm

/-- C7: concrete scenario.  `_get_purchase_cost 4 10 100` returns exactly
40 and the purchase leaves record cost 60 and balance 6;
`_get_purchase_cost 3 6 60` returns exactly 30 leaving cost 30 and
balance 3; `_get_purchase_cost 4 6 35` fails `InvalidArgument` because
`4 * 35 = 140` is not divisible by 6. -/
theorem concrete_purchase_scenario :
    _get_purchase_cost 4 10 100 = Except.ok 40 ∧
    purchase_partial ⟨⟨100, 0⟩, 10⟩ 4 = Except.ok ⟨40, some ⟨⟨60, 0⟩, 6⟩⟩ ∧
    _get_purchase_cost 3 6 60 = Except.ok 30 ∧
    purchase_partial ⟨⟨60, 0⟩, 6⟩ 3 = Except.ok ⟨30, some ⟨⟨30, 0⟩, 3⟩⟩ ∧
    _get_purchase_cost 4 6 35 = Except.error ProgErr.invalidArgument :=
  ⟨rfl, rfl, rfl, rfl, rfl⟩

/-- C8: the no-argument `purchase` operation is, on every state, the same
operation as `purchase_partial` called with the vault's entire current
balance — identical success/failure outcome, charged cost, and resulting
state (including closing). -/
theorem purchase_eq_full_fill (s : EscrowState) :
    purchase s = purchase_partial s s.vault_balance := rfl

/-- C2: for `u64` inputs with `0 < qty ≤ total_qty`, a successful
`_get_purchase_cost qty total_qty total_cost` returns a cost satisfying
`total_qty * cost = qty * total_cost` exactly, and the call fails with
`InvalidArgument` precisely when `total_qty` does not divide
`qty * total_cost`; it never returns a rounded cost. -/
theorem get_purchase_cost_exact_division (qty tq tc : Nat) (h1 : 0 < qty) (h2 : qty ≤ tq)
    (htq : tq < u64Lim) (htc : tc < u64Lim) :
    (∀ c, _get_purchase_cost qty tq tc = Except.ok c → tq * c = qty * tc) ∧
    (_get_purchase_cost qty tq tc = Except.error ProgErr.invalidArgument ↔ ¬ tq ∣ qty * tc) := by
  constructor
  · intro c hc
    exact (gpc_ok_facts _ _ _ _ hc).2.2.1
  · rw [gpc_eval qty tq tc h1 h2 htq htc]
    by_cases hd : tq ∣ qty * tc
    · simp [hd]
    · simp [hd]

/-- Witness for C2 at `qty = 3`, `total_qty = 6`, `total_cost = 60`. -/
theorem get_purchase_cost_exact_division_witness :
    ((0:Nat) < 3 ∧ (3:Nat) ≤ 6 ∧ (6:Nat) < u64Lim ∧ (60:Nat) < u64Lim) ∧
    ((∀ c, _get_purchase_cost 3 6 60 = Except.ok c → 6 * c = 3 * 60) ∧
     (_get_purchase_cost 3 6 60 = Except.error ProgErr.invalidArgument ↔ ¬ (6:Nat) ∣ 3 * 60)) :=
  ⟨⟨by decide, by decide, by decide, by decide⟩,
   get_purchase_cost_exact_division 3 6 60 (by decide) (by decide) (by decide) (by decide)⟩

/-- C4: for `u64` inputs, `_check_tender_args` succeeds iff `add_cost`
and `add_qty` are nonzero and the exact cross-products agree; it fails
`InvalidArgument` whenever `add_cost = 0` or `add_qty = 0`; and on a
first deposit (`current_cost = current_qty = 0`) it succeeds for every
nonzero pair. -/
theorem check_tender_args_characterization (cc ac cq aq : Nat)
    (hcc : cc < u64Lim) (hac : ac < u64Lim) (hcq : cq < u64Lim) (haq : aq < u64Lim) :
    (_check_tender_args cc ac cq aq = Except.ok () ↔ ac ≠ 0 ∧ aq ≠ 0 ∧ cq * ac = cc * aq) ∧
    ((ac = 0 ∨ aq = 0) → _check_tender_args cc ac cq aq = Except.error ProgErr.invalidArgument) ∧
    ((cc = 0 ∧ cq = 0 ∧ ac ≠ 0 ∧ aq ≠ 0) → _check_tender_args cc ac cq aq = Except.ok ()) := by
  rw [cta_eval cc ac cq aq hcc hac hcq haq]
  refine ⟨⟨?_, ?_⟩, ?_, ?_⟩
  · intro hok
    by_cases hz : ac = 0 ∨ aq = 0
    · rw [if_pos hz] at hok
      exact absurd hok (by simp)
    · rw [if_neg hz] at hok
      by_cases he : cq * ac = cc * aq
      · push_neg at hz
        exact ⟨hz.1, hz.2, he⟩
      · rw [if_neg he] at hok
        exact absurd hok (by simp)
  · rintro ⟨hz1, hz2, he⟩
    rw [if_neg (by tauto), if_pos he]
  · intro hz
    rw [if_pos hz]
  · rintro ⟨hc0, hq0, hz1, hz2⟩
    rw [if_neg (by tauto), if_pos (by rw [hc0, hq0]; ring)]

/-- Witness for C4 at a first deposit `(0, 5, 0, 3)`. -/
theorem check_tender_args_characterization_witness :
    ((0:Nat) < u64Lim ∧ (5:Nat) < u64Lim ∧ (0:Nat) < u64Lim ∧ (3:Nat) < u64Lim) ∧
    ((_check_tender_args 0 5 0 3 = Except.ok () ↔
        (5:Nat) ≠ 0 ∧ (3:Nat) ≠ 0 ∧ (0:Nat) * 5 = 0 * 3) ∧
     (((5:Nat) = 0 ∨ (3:Nat) = 0) →
        _check_tender_args 0 5 0 3 = Except.error ProgErr.invalidArgument) ∧
     (((0:Nat) = 0 ∧ (0:Nat) = 0 ∧ (5:Nat) ≠ 0 ∧ (3:Nat) ≠ 0) →
        _check_tender_args 0 5 0 3 = Except.ok ())) :=
  ⟨⟨by decide, by decide, by decide, by decide⟩,
   check_tender_args_characterization 0 5 0 3 (by decide) (by decide) (by decide) (by decide)⟩

/-- C10: for `u64` inputs, the two 128-bit cross-products in
`_check_tender_args` never overflow, so its overflow-failure branch is
unreachable and the outcome is fully determined by the zero tests and
the cross-product equality test. -/
theorem check_tender_args_no_overflow (cc ac cq aq : Nat)
    (hcc : cc < u64Lim) (hac : ac < u64Lim) (hcq : cq < u64Lim) (haq : aq < u64Lim) :
    checkedMul128 cq ac = some (cq * ac) ∧ checkedMul128 cc aq = some (cc * aq) ∧
    _check_tender_args cc ac cq aq =
      (if ac = 0 ∨ aq = 0 then Except.error ProgErr.invalidArgument
       else if cq * ac = cc * aq then Except.ok () else Except.error ProgErr.invalidArgument) := by
  refine ⟨?_, ?_, cta_eval cc ac cq aq hcc hac hcq haq⟩
  · unfold checkedMul128
    rw [if_pos (mul_lt_u128 hcq hac)]
  · unfold checkedMul128
    rw [if_pos (mul_lt_u128 hcc haq)]

/-- Witness for C10 at the largest `u64` values. -/
theorem check_tender_args_no_overflow_witness :
    (u64Lim - 1 < u64Lim ∧ u64Lim - 1 < u64Lim ∧ u64Lim - 1 < u64Lim ∧ u64Lim - 1 < u64Lim) ∧
    (checkedMul128 (u64Lim - 1) (u64Lim - 1) = some ((u64Lim - 1) * (u64Lim - 1)) ∧
     checkedMul128 (u64Lim - 1) (u64Lim - 1) = some ((u64Lim - 1) * (u64Lim - 1)) ∧
     _check_tender_args (u64Lim - 1) (u64Lim - 1) (u64Lim - 1) (u64Lim - 1) =
       (if u64Lim - 1 = 0 ∨ u64Lim - 1 = 0 then Except.error ProgErr.invalidArgument
        else if (u64Lim - 1) * (u64Lim - 1) = (u64Lim - 1) * (u64Lim - 1) then Except.ok ()
        else Except.error ProgErr.invalidArgument)) :=
  ⟨⟨by decide, by decide, by decide, by decide⟩,
   check_tender_args_no_overflow (u64Lim - 1) (u64Lim - 1) (u64Lim - 1) (u64Lim - 1)
     (by decide) (by decide) (by decide) (by decide)⟩

/-- C5: every successful `_get_purchase_cost` returns a cost at most the
total cost, and consequently the `InsufficientFunds` branch of
`purchase_partial` (the checked subtraction on the record cost) is
unreachable: `purchase_partial` never returns that error. -/
theorem purchase_cost_le_total (qty tq tc c : Nat) (s : EscrowState) (q : Nat)
    (h : _get_purchase_cost qty tq tc = Except.ok c) :
    c ≤ tc ∧ purchase_partial s q ≠ Except.error ProgErr.insufficientFunds := by
  refine ⟨(gpc_ok_facts _ _ _ _ h).2.2.2.1, ?_⟩
  intro hbad
  unfold purchase_partial at hbad
  split at hbad
  · rename_i e hgpc
    injection hbad with hbad
    subst hbad
    exact absurd (gpc_error_invalid _ _ _ _ hgpc) (by decide)
  · rename_i c2 hgpc
    split at hbad
    · rename_i hsub
      have hle := (gpc_ok_facts _ _ _ _ hgpc).2.2.2.1
      unfold checkedSub at hsub
      rw [if_pos hle] at hsub
      simp at hsub
    · rename_i nc hsub
      split at hbad
      · simp at hbad
      · simp at hbad

/-- Witness for C5 at the concrete call `_get_purchase_cost 4 10 100 = ok 40`. -/
theorem purchase_cost_le_total_witness :
    (_get_purchase_cost 4 10 100 = Except.ok 40) ∧
    ((40:Nat) ≤ 100 ∧
      purchase_partial ⟨⟨100, 0⟩, 10⟩ 4 ≠ Except.error ProgErr.insufficientFunds) :=
  ⟨rfl, purchase_cost_le_total 4 10 100 40 ⟨⟨100, 0⟩, 10⟩ 4 rfl⟩

/-- C9: a successful `burn` of `0 < qty < vault_balance` leaves the
record (both `total_purchase_cost` and `bump_seed`) unchanged and only
reduces the vault balance. -/
theorem burn_preserves_record (s : EscrowState) (q : Nat)
    (h1 : 0 < q) (h2 : q < s.vault_balance) :
    burn s q = Except.ok (some ⟨s.record, s.vault_balance - q⟩) := by
  unfold burn
  rw [if_neg (show ¬(q = 0 ∨ s.vault_balance < q) by omega), if_neg (by omega)]

/-- Witness for C9 at state (cost 100, bump 7, balance 10), burning 4. -/
theorem burn_preserves_record_witness :
    ((0:Nat) < 4 ∧ (4:Nat) < (⟨⟨100, 7⟩, 10⟩ : EscrowState).vault_balance) ∧
    burn ⟨⟨100, 7⟩, 10⟩ 4 = Except.ok (some ⟨⟨100, 7⟩, 6⟩) :=
  ⟨⟨by decide, by decide⟩, burn_preserves_record ⟨⟨100, 7⟩, 10⟩ 4 (by decide) (by decide)⟩

/-- Counterexample for C6: two deposits of cost `2 ^ 64 - 1` at quantity 1
each pass the ratio check, yet the second leaves the stored total at
`2 ^ 64 - 2`, not the exact sum `2 ^ 65 - 2` — the unchecked `u64`
accumulation wraps, so it is not overflow-safe for all inputs passing
the ratio check. -/
theorem tender_overflow_counterexample :
    tender ⟨⟨u64Lim - 1, 0⟩, 1⟩ 0 (u64Lim - 1) 1 = Except.ok ⟨⟨u64Lim - 2, 0⟩, 2⟩ ∧
    (u64Lim - 1) + (u64Lim - 1) ≠ u64Lim - 2 := ⟨rfl, by decide⟩

/-- C6 (amended): on every successful `tender` or `tender_from_mint`, the
new `total_purchase_cost` equals the old one plus `add_cost` reduced
modulo `2 ^ 64`; it equals the exact (unbounded) sum exactly when that
sum fits in a `u64`.  The ratio check does not prevent the overflow. -/
theorem tender_cost_accumulates_mod (s : EscrowState) (b ac aq : Nat) (sNew : EscrowState)
    (h : tender s b ac aq = Except.ok sNew ∨ tender_from_mint s b ac aq = Except.ok sNew) :
    sNew.record.total_purchase_cost = (s.record.total_purchase_cost + ac) % u64Lim ∧
    (s.record.total_purchase_cost + ac < u64Lim →
      sNew.record.total_purchase_cost = s.record.total_purchase_cost + ac) := by
  have h' : tender s b ac aq = Except.ok sNew := by
    rcases h with h | h
    · exact h
    · rw [← tender_from_mint_eq_tender]
      exact h
  obtain ⟨-, -, -, -, hstate⟩ := tender_ok_facts _ _ _ _ _ h'
  subst hstate
  refine ⟨rfl, fun hfit => ?_⟩
  exact Nat.mod_eq_of_lt hfit

/-- Witness for C6 at a non-overflowing deposit of (cost 50, qty 5) onto
state (cost 100, balance 10). -/
theorem tender_cost_accumulates_mod_witness :
    ( tender ⟨⟨100, 0⟩, 10⟩ 0 50 5 = Except.ok ⟨⟨150, 0⟩, 15⟩ ∨
      tender_from_mint ⟨⟨100, 0⟩, 10⟩ 0 50 5 = Except.ok ⟨⟨150, 0⟩, 15⟩) ∧
    ((⟨⟨150, 0⟩, 15⟩ : EscrowState).record.total_purchase_cost = (100 + 50) % u64Lim ∧
     (100 + 50 < u64Lim →
       (⟨⟨150, 0⟩, 15⟩ : EscrowState).record.total_purchase_cost = 100 + 50)) :=
  ⟨Or.inl rfl,
   tender_cost_accumulates_mod ⟨⟨100, 0⟩, 10⟩ 0 50 5 ⟨⟨150, 0⟩, 15⟩ (Or.inl rfl)⟩

/-- Counterexample for C1: `burn` succeeds, leaves the record open, and
breaks the proportionality of (total cost, vault balance): from
(cost 100, balance 10) burning 5 yields (cost 100, balance 5), and
`100 * 10 ≠ 100 * 5`. -/
theorem burn_breaks_proportionality :
    burn ⟨⟨100, 0⟩, 10⟩ 5 = Except.ok (some ⟨⟨100, 0⟩, 5⟩) ∧
    ¬ ratio_preserved ⟨⟨100, 0⟩, 10⟩ ⟨⟨100, 0⟩, 5⟩ := ⟨rfl, by decide⟩

/-- C1 (amended): the deposit operations (`tender`, `tender_from_mint` —
provided the updated total cost fits in a `u64`, see the C6
counterexample) and `purchase_partial`, whenever they succeed and leave
the record open, preserve the proportionality of
(total_purchase_cost, vault_balance); `burn` does not. -/
theorem open_ops_preserve_proportionality (s sNew : EscrowState)
    (h : (∃ b ac aq, s.record.total_purchase_cost + ac < u64Lim ∧
           ( tender s b ac aq = Except.ok sNew ∨
             tender_from_mint s b ac aq = Except.ok sNew)) ∨
         (∃ q out, purchase_partial s q = Except.ok out ∧ out.state = some sNew)) :
    ratio_preserved s sNew := by
  rcases h with ⟨b, ac, aq, hfit, h⟩ | ⟨q, out, h, hst⟩
  · have h' : tender s b ac aq = Except.ok sNew := by
      rcases h with h | h
      · exact h
      · rw [← tender_from_mint_eq_tender]
        exact h
    obtain ⟨-, -, hprop, -, hstate⟩ := tender_ok_facts _ _ _ _ _ h'
    subst hstate
    show (s.record.total_purchase_cost + ac) % u64Lim * s.vault_balance
        = s.record.total_purchase_cost * (s.vault_balance + aq)
    rw [Nat.mod_eq_of_lt hfit, Nat.add_mul, Nat.mul_add, Nat.mul_comm ac s.vault_balance,
      Nat.mul_comm s.vault_balance ac] at *
    rw [hprop]
  · obtain ⟨hq, hqle, heq, hcle, hif⟩ := pp_ok_facts _ _ _ h
    by_cases hz : s.vault_balance - q = 0
    · rw [if_pos hz] at hif
      rw [hif] at hst
      simp at hst
    · rw [if_neg hz] at hif
      rw [hif] at hst
      injection hst with hst
      subst hst
      show (s.record.total_purchase_cost - out.cost_paid) * s.vault_balance
          = s.record.total_purchase_cost * (s.vault_balance - q)
      have hc : out.cost_paid * s.vault_balance = q * s.record.total_purchase_cost := by
        rw [Nat.mul_comm]
        exact heq
      calc (s.record.total_purchase_cost - out.cost_paid) * s.vault_balance
          = s.record.total_purchase_cost * s.vault_balance
              - out.cost_paid * s.vault_balance := Nat.sub_mul _ _ _
        _ = s.vault_balance * s.record.total_purchase_cost
              - q * s.record.total_purchase_cost := by
            rw [hc, Nat.mul_comm s.record.total_purchase_cost s.vault_balance]
        _ = (s.vault_balance - q) * s.record.total_purchase_cost := (Nat.sub_mul _ _ _).symm
        _ = s.record.total_purchase_cost * (s.vault_balance - q) := Nat.mul_comm _ _

/-- Witness for C1 at a deposit of (cost 50, qty 5) onto (cost 100,
balance 10). -/
theorem open_ops_preserve_proportionality_witness :
    ((∃ b ac aq,
        (⟨⟨100, 0⟩, 10⟩ : EscrowState).record.total_purchase_cost + ac < u64Lim ∧
        ( tender ⟨⟨100, 0⟩, 10⟩ b ac aq = Except.ok ⟨⟨150, 0⟩, 15⟩ ∨
          tender_from_mint ⟨⟨100, 0⟩, 10⟩ b ac aq = Except.ok ⟨⟨150, 0⟩, 15⟩)) ∨
     (∃ q out, purchase_partial ⟨⟨100, 0⟩, 10⟩ q = Except.ok out ∧
        out.state = some ⟨⟨150, 0⟩, 15⟩)) ∧
    ratio_preserved ⟨⟨100, 0⟩, 10⟩ ⟨⟨150, 0⟩, 15⟩ :=
  ⟨Or.inl ⟨0, 50, 5, by decide, Or.inl rfl⟩,
   open_ops_preserve_proportionality ⟨⟨100, 0⟩, 10⟩ ⟨⟨150, 0⟩, 15⟩
     (Or.inl ⟨0, 50, 5, by decide, Or.inl rfl⟩)⟩

/-- C3: for an initial state with positive balance `T` and cost `C`, any
sequence of partial fills that all succeed and whose quantities sum to
`T` yields total proceeds exactly `C` — the proceeds of a single full
fill — and the final fill closes the vault and the record, regardless of
the order of the fills. -/
theorem partial_fills_total_proceeds (s : EscrowState) (qs : List Nat)
    (st : Option EscrowState) (proceeds : Nat)
    (hT : 0 < s.vault_balance) (hsum : qs.sum = s.vault_balance)
    (hrun : run_purchases s qs = Except.ok (st, proceeds)) :
    proceeds = s.record.total_purchase_cost ∧ st = none := by
  induction qs generalizing s st proceeds with
  | nil =>
    exfalso
    simp at hsum
    omega
  | cons q qs ih =>
    simp [List.sum_cons] at hsum
    unfold run_purchases at hrun
    split at hrun
    · simp at hrun
    · rename_i out hpp
      obtain ⟨hq, hqle, heq, hcle, hif⟩ := pp_ok_facts _ _ _ hpp
      split at hrun
      · rename_i hst
        split at hrun
        · simp at hrun
          obtain ⟨h1, h2⟩ := hrun
          have hz : s.vault_balance - q = 0 := by
            by_contra hzz
            rw [if_neg hzz] at hif
            rw [hst] at hif
            simp at hif
          have hqT : q = s.vault_balance := by omega
          subst hqT
          have hcC : out.cost_paid = s.record.total_purchase_cost := by
            have := heq
            exact Nat.eq_of_mul_eq_mul_left hT this
          exact ⟨by omega, h1.symm⟩
        · simp at hrun
      · rename_i s' hst
        split at hrun
        · simp at hrun
        · rename_i st' proceeds' hrec
          simp at hrun
          obtain ⟨h1, h2⟩ := hrun
          by_cases hz : s.vault_balance - q = 0
          · rw [if_pos hz] at hif
            rw [hst] at hif
            simp at hif
          · rw [if_neg hz] at hif
            rw [hst] at hif
            injection hif with hif
            have hT' : 0 < s'.vault_balance := by
              rw [hif]
              show 0 < s.vault_balance - q
              omega
            have hsum' : qs.sum = s'.vault_balance := by
              rw [hif]
              show qs.sum = s.vault_balance - q
              omega
            obtain ⟨hp', hst'⟩ := ih s' st' proceeds' hT' hsum' hrec
            have hcost' : s'.record.total_purchase_cost
                = s.record.total_purchase_cost - out.cost_paid := by
              rw [hif]
            have hp2 : proceeds' = s.record.total_purchase_cost - out.cost_paid := by
              rw [hp', hcost']
            constructor
            · rw [← h2, hp2, Nat.add_sub_cancel' hcle]
            · rw [← h1, hst']

/-- Witness for C3: fills [4, 3, 3] on (cost 100, balance 10) succeed,
sum to the balance, yield proceeds 100 and close the record. -/
theorem partial_fills_total_proceeds_witness :
    ((0:Nat) < (⟨⟨100, 0⟩, 10⟩ : EscrowState).vault_balance ∧
      List.sum [4, 3, 3] = (⟨⟨100, 0⟩, 10⟩ : EscrowState).vault_balance ∧
      run_purchases ⟨⟨100, 0⟩, 10⟩ [4, 3, 3] = Except.ok (none, 100)) ∧
    ((100:Nat) = (⟨⟨100, 0⟩, 10⟩ : EscrowState).record.total_purchase_cost ∧
      (none : Option EscrowState) = none) :=
  ⟨⟨by decide, by decide, rfl⟩,
   partial_fills_total_proceeds ⟨⟨100, 0⟩, 10⟩ [4, 3, 3] none 100 (by decide) (by decide) rfl⟩
